import Mathlib

/-!
Verification of the schedule renderer `yaml_to_html.py`.

The script is a linear transform: load a YAML document, render it into a
fixed HTML page template, write the result.  We shallow-embed the dynamic
Python values the script manipulates as the inductive type `Value`
(YAML `safe_load` produces null, booleans, integers, strings, sequences and
mappings; mappings are modelled with text keys, which is the shape every
document handled by the script has), and translate each function of the
source file into a Lean function over `Value`.  A Python exception is
modelled as `none` in an `Option` result.
-/

/-- A loaded document value (the result of `yaml.safe_load`), modelled
with text keys for mappings. -/
inductive Value : Type where
  | null : Value
  | bool : Bool → Value
  | int : Int → Value
  | str : String → Value
  | list : List Value → Value
  | dict : List (String × Value) → Value

/-- Python truthiness (`bool(v)`): `None`, `False`, `0`, `""`, `[]`, `{}`
are falsy, everything else is truthy. -/
def truthy : Value → Bool
  | Value.null => false
  | Value.bool b => b
  | Value.int n => n != 0
  | Value.str s => s != ""
  | Value.list xs => !xs.isEmpty
  | Value.dict ps => !ps.isEmpty

/-- Python `a or b`: returns `a` when truthy, else `b`. -/
def pyOr (a b : Value) : Value := if truthy a then a else b

/-- First-match lookup in a mapping, in insertion order. -/
def lookupV : List (String × Value) → String → Option Value
  | [], _ => none
  | p :: ps, k => if p.1 == k then some p.2 else lookupV ps k

/-- `d.get(k, default)` on a mapping's pair list. -/
def dictGetD (ps : List (String × Value)) (k : String) (d : Value) : Value :=
  match lookupV ps k with
  | some v => v
  | none => d

/-- `v.get(...)` is only available on mappings; anything else raises. -/
def asDict : Value → Option (List (String × Value))
  | Value.dict ps => some ps
  | _ => none

/-- Python `v[0]`: first element of a sequence, first character of a
string (as a one-character string); raises on everything else (our
mappings have text keys, so `v[0]` with an integer key raises too). -/
def subscript0 : Value → Option Value
  | Value.list (x :: _) => some x
  | Value.list [] => none
  | Value.str s =>
      match s.data with
      | c :: _ => some (Value.str (String.mk [c]))
      | [] => none
  | _ => none

/-- Python iteration `for x in v`: elements of a sequence, characters of
a string, keys of a mapping; raises on scalars. -/
def pyIter : Value → Option (List Value)
  | Value.list xs => some xs
  | Value.str s => some (s.data.map fun c => Value.str (String.mk [c]))
  | Value.dict ps => some (ps.map fun p => Value.str p.1)
  | _ => none

/-- Python `repr` of a string: quote with `'` unless the text contains a
`'` and no `"`; escape backslashes and the chosen quote.  (Control-char
escapes are not modelled; no claim evaluates `repr`.) -/
def pyReprStr (s : String) : String :=
  let q : Char := if s.data.contains (Char.ofNat 39) && !s.data.contains '"'
    then '"' else Char.ofNat 39
  let body := s.data.flatMap fun c => if c = '\\' || c = q then ['\\', c] else [c]
  String.mk (q :: body ++ [q])

mutual

/-- Python `repr` for the loaded-value types (used by `str` on containers). -/
def pyRepr : Value → String
  | Value.null => "None"
  | Value.bool b => if b then "True" else "False"
  | Value.int n => toString n
  | Value.str s => pyReprStr s
  | Value.list xs => "[" ++ String.intercalate (", ") (pyReprList xs) ++ "]"
  | Value.dict ps => "\x7b" ++ String.intercalate (", ") (pyReprPairs ps) ++ "\x7d"

/-- `repr` of the elements of a sequence. -/
def pyReprList : List Value → List String
  | [] => []
  | x :: xs => pyRepr x :: pyReprList xs

/-- `repr` of the entries of a mapping. -/
def pyReprPairs : List (String × Value) → List String
  | [] => []
  | p :: ps => (pyReprStr p.1 ++ ": " ++ pyRepr p.2) :: pyReprPairs ps

end

/-- Python `str(v)`. -/
def pyStr : Value → String
  | Value.null => "None"
  | Value.bool b => if b then "True" else "False"
  | Value.int n => toString n
  | Value.str s => s
  | Value.list xs => pyRepr (Value.list xs)
  | Value.dict ps => pyRepr (Value.dict ps)

/-- `str.replace(old, new)` for non-overlapping leftmost matches, on
character lists, driven by a gas list so that it computes by structural
recursion.  With `gas` at least as long as the text the gas never runs
out, since every step consumes at least one character. -/
def pyReplaceF (pat rep : List Char) : List Char → List Char → List Char
  | _, [] => []
  | [], l => l
  | _ :: g, c :: cs =>
      if pat.isPrefixOf (c :: cs) then
        rep ++ pyReplaceF pat rep g (cs.drop (pat.length - 1))
      else
        c :: pyReplaceF pat rep g cs

/-- Python `s.replace(pat, rep)`.  (For the empty pattern Python splices
`rep` between characters; none of the patterns used here is empty, and we
return `l` unchanged in that case.) -/
def pyReplace (pat rep l : List Char) : List Char :=
  if pat.isEmpty then l else pyReplaceF pat rep l l

/-- `str.replace` on strings, argument order as in `s.replace(old, new)`. -/
def pyReplaceS (s old new : String) : String :=
  String.mk (pyReplace old.data new.data s.data)

/-- CPython `html.escape(s)` (with its default `quote=True`):
five successive single-character replaces, in source order. -/
def html_escape (l : List Char) : List Char :=
  let s1 := pyReplace ['&'] (("&amp;").data) l
  let s2 := pyReplace ['<'] (("&lt;").data) s1
  let s3 := pyReplace ['>'] (("&gt;").data) s2
  let s4 := pyReplace ['"'] (("&quot;").data) s3
  pyReplace [Char.ofNat 39] (("&#x27;").data) s4

/-- `html.escape` on strings. -/
def html_escapeS (s : String) : String := String.mk (html_escape s.data)

/-- `_escape(s)`: `html.escape("" if s is None else str(s))`. -/
def _escape (s : Value) : String :=
  html_escapeS (match s with | Value.null => "" | v => pyStr v)

theorem escape_sample :
    _escape (Value.str ("a<b&c'd\"e>f")) = "a&lt;b&amp;c&#x27;d&quot;e&gt;f" := by
  decide

theorem escape_none_sample : _escape Value.null = "" := by decide

theorem escape_int_sample : _escape (Value.int 930) = "930" := by decide

/-- `render_attendees(attendees)`: em-dash for a falsy list, otherwise
escaped pill elements joined by single spaces. -/
def render_attendees (attendees : Value) : Option String :=
  if truthy attendees = false then some ("—")
  else
    (pyIter attendees).map fun xs =>
      String.intercalate (" ")
        (xs.map fun a => "<span class=\"att-pill\">" ++ _escape a ++ "</span>")

/-- `render_lecture(lec)`: title line and attendees line in a fixed block.
`lec.get(...)` raises unless `lec` is a mapping. -/
def render_lecture (lec : Value) : Option String :=
  match lec with
  | Value.dict ps =>
      let title := _escape (dictGetD ps ("lecture") (Value.str ""))
      (render_attendees (dictGetD ps ("attendees") (Value.list []))).map fun attendees_html =>
        "<div class=\"lecture\">" ++
          "  <div class=\"title\">" ++ title ++ "</div>" ++
          "  <div class=\"attendees\">" ++ attendees_html ++ "</div>" ++
          "</div>"
  | _ => none

/-- The start/end pair `render_slot` computes from the `time` value:
a 2+-element sequence gives its first two elements; otherwise
`(time[0] if time else "", "")`, where the subscript may raise. -/
def timeStartEnd (time : Value) : Option (Value × Value) :=
  match time with
  | Value.list (a :: b :: _) => some (a, b)
  | _ =>
      if truthy time then (subscript0 time).map fun v => (v, Value.str "")
      else some (Value.str "", Value.str "")

/-- The text of the time column:
`f"{_escape(start)} — {_escape(end)}" if (start or end) else "—"`. -/
def time_str (time : Value) : Option String :=
  (timeStartEnd time).map fun p =>
    if truthy p.1 || truthy p.2 then _escape p.1 ++ " — " ++ _escape p.2 else "—"

/-- `f(x)` for each element, in order, first exception aborting — the
evaluation of a comprehension such as
`"\n".join(render_slot(s) for s in slots)`. -/
def mapO (f : α → Option β) : List α → Option (List β)
  | [] => some []
  | x :: xs =>
      match f x with
      | none => none
      | some y => (mapO f xs).map fun ys => y :: ys

/-- `render_slot(slot)`: the time column followed by the lecture blocks,
newline-joined.  `slot.get(...)` raises unless `slot` is a mapping. -/
def render_slot (slot : Value) : Option String :=
  match slot with
  | Value.dict ps => do
      let ts ← time_str (dictGetD ps ("time") (Value.list []))
      let lectures := pyOr (dictGetD ps ("lectures") (Value.list [])) (Value.list [])
      let ls ← pyIter lectures
      let lhs ← mapO render_lecture ls
      pure ("<div class=\"slot\">" ++
        "  <div class=\"time\">" ++ ts ++ "</div>" ++
        "  <div class=\"lectures\">" ++ String.intercalate ("\n") lhs ++ "</div>" ++
        "</div>")
  | _ => none

theorem render_slot_sample :
    render_slot (Value.dict [(("time"), Value.list [Value.str ("09:00"), Value.str ("10:00")])])
    = some ("<div class=\"slot\">  <div class=\"time\">09:00 — 10:00</div>  <div class=\"lectures\"></div></div>") := by
  decide

/-- The conventional weekday order preferred by `generate_html`. -/
def dayOrder : List String :=
  ["monday", "tuesday", "wednesday", "thursday", "friday", "saturday", "sunday"]

/-- Membership test `x in l` on key lists. -/
def memB (x : String) : List String → Bool
  | [] => false
  | y :: ys => (x == y) || memB x ys

/-- The second loop of `generate_html`'s day ordering: emit every key not
yet seen, marking keys seen as they are emitted. -/
def appendUnseen : List String → List String → List String
  | [], _ => []
  | k :: ks, seen =>
      if memB k seen then appendUnseen ks seen else k :: appendUnseen ks (k :: seen)

/-- The day ordering of `generate_html`: canonical weekdays present in the
mapping first, then the remaining keys in original insertion order. -/
def orderDays (week : List (String × Value)) : List String :=
  let keys := week.map Prod.fst
  let first := dayOrder.filter fun d => memB d keys
  first ++ appendUnseen keys first

/-- Python `str.capitalize()`: first character uppercased, all remaining
characters lowercased (ASCII case mapping; the day keys are ASCII). -/
def pyCapitalize (s : String) : String :=
  match s.data with
  | [] => ""
  | c :: cs => String.mk (c.toUpper :: cs.map Char.toLower)

theorem pyCapitalize_sample : pyCapitalize ("tueSDAY") = "Tuesday" := by decide

/-- One day section: header with the capitalized day name, body with the
slots.  (Factored out of the loop body of `generate_html`.) -/
def daySectionHtml (day : String) (slots_html : String) : String :=
  "<section class=\"day-section\">" ++
    "  <header class=\"day-header\"><div class=\"day-name\">" ++
    _escape (Value.str (pyCapitalize day)) ++ "</div></header>" ++
    "  <div class=\"day-row\">" ++ slots_html ++ "</div>" ++
    "</section>"

/-- One iteration of `generate_html`'s day loop: `some none` when the day
is skipped (`if not slots: continue`), `none` when rendering raises,
`some (some html)` when a section is emitted. -/
def emitDay (week : List (String × Value)) (day : String) : Option (Option String) :=
  let slots := pyOr (dictGetD week day (Value.list [])) (Value.list [])
  if truthy slots = false then some none
  else
    match pyIter slots with
    | none => none
    | some xs =>
        (mapO render_slot xs).map fun hs =>
          some (daySectionHtml day (String.intercalate ("\n") hs))

/-- The list `days_html_parts` built by `generate_html`. -/
def daysHtmlParts (week : List (String × Value)) : Option (List String) :=
  (mapO (emitDay week) (orderDays week)).map fun parts => parts.filterMap id

/-- The `week` mapping `generate_html` iterates: `doc.get("week", {}) or {}`,
which must be a mapping for `week.keys()` to exist. -/
def weekOf (ps : List (String × Value)) : Option (List (String × Value)) :=
  asDict (pyOr (dictGetD ps ("week") (Value.dict [])) (Value.dict []))

/-- Template text before/between the placeholder tokens (verbatim). -/
def tpl0 : String :=
  "<!doctype html>
<html lang=\"en\">
<head>
<meta charset=\"utf-8\">
<title>"

/-- Template text before/between the placeholder tokens (verbatim). -/
def tpl1 : String :=
  " ("

/-- Template text before/between the placeholder tokens (verbatim). -/
def tpl2 : String :=
  ")</title>
<meta name=\"viewport\" content=\"width=device-width,initial-scale=1\">
<style>
:root\x7b
  --bg: #0b1220;
  --panel: #0f1724;
  --muted: #d7e0ea;
  --accent: #5fb8ff;
  --gap:12px;
  font-family: system-ui, -apple-system, \"Segoe UI\", Roboto, \"Helvetica Neue\", Arial;
  color-scheme: dark;
\x7d
html,body\x7bheight:100%;margin:0\x7d
body\x7b
  margin:28px;
  background-color:var(--bg);
  color:var(--muted);
  -webkit-font-smoothing:antialiased;
  -moz-osx-font-smoothing:grayscale;
\x7d
header\x7bdisplay:flex;align-items:baseline;gap:12px;margin-bottom:14px\x7d
h1\x7bmargin:0;font-size:1.25rem\x7d
.meta\x7bcolor:rgba(215,224,234,0.9);font-size:0.95rem\x7d
main\x7bmax-width:1100px;margin:0 auto;display:flex;flex-direction:column;gap:14px\x7d
.day-section\x7b
  background:var(--panel);
  border:1px solid rgba(255,255,255,0.03);
  border-radius:10px;padding:12px;
\x7d
.day-header\x7bdisplay:flex;align-items:center;margin-bottom:10px\x7d
.day-name\x7bfont-weight:700;color:var(--accent);font-size:1rem;text-transform:capitalize\x7d
.day-row\x7bdisplay:flex;gap:var(--gap);flex-wrap:wrap\x7d
.slot\x7bmin-width:220px;flex:1 1 240px;display:flex;gap:12px;align-items:flex-start;padding:12px;border-radius:10px;
  background:rgba(255,255,255,0.02);border:1px solid rgba(255,255,255,0.02)\x7d
.time\x7bwidth:96px;font-weight:700;color:var(--muted);flex-shrink:0\x7d
.lectures\x7bflex:1;display:flex;flex-direction:column;gap:8px\x7d
.lecture\x7bpadding:10px;border-radius:8px;background:rgba(255,255,255,0.015);border:1px solid rgba(255,255,255,0.01)\x7d
.title\x7bfont-weight:700;color:#fff\x7d
.attendees\x7bfont-size:0.85rem;color:rgba(215,224,234,0.9);margin-top:8px;display:flex;gap:8px;flex-wrap:wrap\x7d
.att-pill\x7bpadding:6px 10px;border-radius:999px;background:rgba(95,184,255,0.08);border:1px solid rgba(95,184,255,0.12);font-size:0.85rem;color:var(--muted)\x7d
footer\x7bmargin-top:16px;color:rgba(215,224,234,0.6);font-size:0.9rem;text-align:center\x7d
/* subtle, low-cost fade-in using opacity only (no transforms) */
.slot, .lecture, .att-pill\x7bopacity:0\x7d
.visible\x7bopacity:1;transition:opacity 260ms linear\x7d
@media (max-width:900px)\x7b .slot\x7bflex-basis:45%\x7d \x7d
@media (max-width:600px)\x7b body\x7bmargin:14px\x7d .slot\x7bflex-basis:100%\x7d .time\x7bwidth:76px\x7d \x7d
</style>
</head>
<body>
<header>
  <h1>"

/-- Template text before/between the placeholder tokens (verbatim). -/
def tpl3 : String :=
  "</h1>
  <div class=\"meta\">Semester: "

/-- Template text before/between the placeholder tokens (verbatim). -/
def tpl4 : String :=
  "</div>
</header>
<main>
"

/-- Template text before/between the placeholder tokens (verbatim). -/
def tpl5 : String :=
  "
</main>
<footer>
  ⠑⠝⠙
</footer>
<script>
(function()\x7b
  var rows = document.querySelectorAll(\x27.day-row\x27);
  rows.forEach(function(row)\x7b
    var slots = Array.prototype.slice.call(row.querySelectorAll(\x27.slot\x27));
    slots.forEach(function(slot, i)\x7b
      setTimeout(function()\x7b slot.classList.add(\x27visible\x27); \x7d, i * 40);
      var lecs = slot.querySelectorAll(\x27.lecture\x27);
      lecs.forEach(function(l, j)\x7b
        setTimeout(function()\x7b l.classList.add(\x27visible\x27); \x7d, i*40 + 80 + j*30);
      \x7d);
      var pills = slot.querySelectorAll(\x27.att-pill\x27);
      pills.forEach(function(p, k)\x7b
        setTimeout(function()\x7b p.classList.add(\x27visible\x27); \x7d, i*40 + 140 + k*20);
      \x7d);
    \x7d);
  \x7d);
\x7d)();
</script>
</body>
</html>
"

/-- The page skeleton of `generate_html`: the Python triple-quoted
template, written as the concatenation of its literal pieces around the
three placeholder tokens (the string value is identical to the source
literal; the split supports reasoning about the substitutions). -/
def template : String :=
  tpl0 ++ "__NAME__" ++ tpl1 ++ "__SEM__" ++ tpl2 ++ "__NAME__" ++ tpl3 ++
    "__SEM__" ++ tpl4 ++ "__DAYS_HTML__" ++ tpl5

/-- `generate_html(doc)`: escape the name (default `"Schedule"` when the
key is absent) and semester (default empty), render the day sections, and
substitute the three tokens in the template, in source order. -/
def generate_html (doc : Value) : Option String := do
  let ps ← asDict doc
  let name := _escape (dictGetD ps ("name") (Value.str ("Schedule")))
  let semester := _escape (dictGetD ps ("semester") (Value.str ""))
  let wps ← weekOf ps
  let parts ← daysHtmlParts wps
  let days_html := String.intercalate ("\n") parts
  pure (pyReplaceS (pyReplaceS (pyReplaceS template ("__NAME__") name)
    ("__SEM__") semester) ("__DAYS_HTML__") days_html)

/-- Substring test on strings. -/
def isSubList (pat : List Char) : List Char → Bool
  | [] => pat.isEmpty
  | c :: t => pat.isPrefixOf (c :: t) || isSubList pat t

/-- `pat in s` for strings. -/
def containsSub (s pat : String) : Bool := isSubList pat.data s.data

/-- The fixed input path of the script. -/
def IN_FILE : String := "terrible.yaml"

/-- The fixed output path of the script. -/
def OUT_FILE : String := "index.html"

/-- The file system visible to one run, as path/content pairs. -/
def fsLookup (fs : List (String × String)) (p : String) : Option String :=
  match fs with
  | [] => none
  | q :: qs => if q.1 == p then some q.2 else fsLookup qs p

/-- `write_text`: unconditionally overwrite the destination. -/
def fsWrite (fs : List (String × String)) (p content : String) : List (String × String) :=
  (p, content) :: fs.filter fun q => q.1 != p

/-- `main()`: check the input exists (fatal `SystemExit` naming the path
otherwise), `load_yaml` (`safe_load(f) or \x7b\x7d`, the parser passed as a
parameter), `generate_html`, write, confirm.  Result: (exit status,
emitted messages, file system after the run).  An uncaught rendering
exception terminates with a nonzero status and its traceback (text not
modelled). -/
def main' (parse : String → Except String Value) (fs : List (String × String)) :
    Nat × List String × List (String × String) :=
  match fsLookup fs IN_FILE with
  | none => (1, ["Input file not found: " ++ IN_FILE], fs)
  | some content =>
      match parse content with
      | Except.error e => (1, [e], fs)
      | Except.ok v =>
          match generate_html (pyOr v (Value.dict [])) with
          | none => (1, [], fs)
          | some page => (0, ["Wrote " ++ OUT_FILE], fsWrite fs OUT_FILE page)

/-! ### Equational reasoning about `str.replace`

`pyReplaceW` is `pyReplaceF` with the gas removed (well-founded on the
text length); `pyReplace_eq_W` links the two.  The skip/match lemmas
describe one pass of `replace` over a concatenation. -/

/-- `str.replace`, recursion on the text only (for reasoning). -/
def pyReplaceW (pat rep : List Char) : List Char → List Char
  | [] => []
  | c :: cs =>
      if pat.isPrefixOf (c :: cs) then
        rep ++ pyReplaceW pat rep (cs.drop (pat.length - 1))
      else
        c :: pyReplaceW pat rep cs
termination_by l => l.length
decreasing_by
  · simp only [List.length_drop, List.length_cons]
    omega
  · simp only [List.length_cons]
    omega

theorem pyReplaceF_eq_W (pat rep : List Char) :
    ∀ (gas l : List Char), l.length ≤ gas.length →
      pyReplaceF pat rep gas l = pyReplaceW pat rep l := by
  intro gas
  induction gas with
  | nil =>
      intro l h
      cases l with
      | nil => simp [pyReplaceF, pyReplaceW]
      | cons c cs => simp at h
  | cons g gs ih =>
      intro l h
      cases l with
      | nil => simp [pyReplaceF, pyReplaceW]
      | cons c cs =>
          rw [pyReplaceF, pyReplaceW]
          by_cases hp : pat.isPrefixOf (c :: cs)
          · rw [if_pos hp, if_pos hp, ih]
            simp only [List.length_drop]
            simp only [List.length_cons] at h
            omega
          · rw [if_neg hp, if_neg hp, ih]
            simp only [List.length_cons] at h
            omega

theorem pyReplace_eq_W (pat rep l : List Char) (h : pat ≠ []) :
    pyReplace pat rep l = pyReplaceW pat rep l := by
  rw [pyReplace, if_neg]
  · exact pyReplaceF_eq_W pat rep l l (Nat.le_refl _)
  · simpa [List.isEmpty_iff] using h

theorem replW_nil (pat rep : List Char) : pyReplaceW pat rep [] = [] := by
  rw [pyReplaceW]

/-- A chunk free of the pattern's first character passes through one
`replace` pass unchanged, whatever follows it. -/
theorem replW_skip_head (h : Char) (p rep a b : List Char)
    (ha : a.all (fun c => c != h) = true) :
    pyReplaceW (h :: p) rep (a ++ b) = a ++ pyReplaceW (h :: p) rep b := by
  induction a with
  | nil => simp
  | cons c a ih =>
      simp only [List.all_cons, Bool.and_eq_true, bne_iff_ne, ne_eq] at ha
      rw [List.cons_append, pyReplaceW, if_neg]
      · rw [ih ha.2, List.cons_append]
      · simp only [List.isPrefixOf, Bool.and_eq_true, beq_iff_eq]
        intro hcon
        exact ha.1 hcon.1.symm

/-- The pattern itself is replaced and scanning resumes after it. -/
theorem replW_match (h : Char) (p rep b : List Char) :
    pyReplaceW (h :: p) rep ((h :: p) ++ b) = rep ++ pyReplaceW (h :: p) rep b := by
  rw [List.cons_append, pyReplaceW, if_pos]
  · congr 1
    rw [List.length_cons, Nat.add_sub_cancel, List.drop_left]
  · exact List.isPrefixOf_iff_prefix.mpr (List.prefix_append (h :: p) b)

/-- No match of `pat` starts inside `a` when the text continues with `b`. -/
def noStart (pat : List Char) : List Char → List Char → Bool
  | [], _ => true
  | c :: a, b => !(pat.isPrefixOf (c :: (a ++ b))) && noStart pat a b

/-- `isPrefixOf` only inspects the first `pat.length` characters. -/
theorem isPrefixOf_take (pat : List Char) :
    ∀ l : List Char, pat.isPrefixOf l = pat.isPrefixOf (l.take pat.length) := by
  induction pat with
  | nil => intro l; simp [List.isPrefixOf]
  | cons p ps ih =>
      intro l
      cases l with
      | nil => simp
      | cons c cs =>
          simp only [List.length_cons, List.take_succ_cons, List.isPrefixOf]
          rw [ih cs]

/-- Whether a match starts inside `a` is settled by the first
`pat.length` characters of the continuation. -/
theorem noStart_append (pat t : List Char) (hlen : pat.length ≤ t.length) :
    ∀ (a r : List Char), noStart pat a (t ++ r) = noStart pat a t := by
  intro a
  induction a with
  | nil => intro r; rfl
  | cons c a ih =>
      intro r
      simp only [noStart, ih r]
      congr 1
      have h1 : c :: (a ++ (t ++ r)) = (c :: (a ++ t)) ++ r := by simp
      have h2 : pat.length ≤ (c :: (a ++ t)).length := by
        simp only [List.length_cons, List.length_append]
        omega
      rw [h1, isPrefixOf_take pat ((c :: (a ++ t)) ++ r),
        List.take_append_of_le_length h2, ← isPrefixOf_take]

/-- A chunk in which no match starts passes through one `replace` pass
unchanged. -/
theorem replW_skip_noStart (pat rep : List Char) :
    ∀ (a b : List Char), noStart pat a b = true →
      pyReplaceW pat rep (a ++ b) = a ++ pyReplaceW pat rep b := by
  intro a
  induction a with
  | nil => intro b _; rfl
  | cons c a ih =>
      intro b ha
      simp only [noStart, Bool.and_eq_true, Bool.not_eq_true'] at ha
      rw [List.cons_append, pyReplaceW, if_neg (by rw [ha.1]; exact Bool.false_ne_true),
        ih b ha.2, List.cons_append]

/-- Skip over chunk `a` when it is followed by a concrete chunk `t` at
least as long as the pattern in which no straddling match starts. -/
theorem replW_skip_part (pat rep a t r : List Char)
    (hlen : pat.length ≤ t.length) (hns : noStart pat a t = true) :
    pyReplaceW pat rep (a ++ (t ++ r)) = a ++ pyReplaceW pat rep (t ++ r) := by
  refine replW_skip_noStart pat rep a (t ++ r) ?_
  rw [noStart_append pat t hlen a r]
  exact hns

/-- Occurrence in a concatenation: either a match starts in `a` (with the
continuation `t`) or the occurrence lies in `t`. -/
theorem isSubList_append (pat : List Char) :
    ∀ (a t : List Char),
      isSubList pat (a ++ t) = (!(noStart pat a t) || isSubList pat t) := by
  intro a
  induction a with
  | nil => intro t; simp [noStart]
  | cons c a ih =>
      intro t
      show (pat.isPrefixOf (c :: (a ++ t)) || isSubList pat (a ++ t)) = _
      rw [ih t]
      simp only [noStart, Bool.not_and, Bool.not_not]
      cases pat.isPrefixOf (c :: (a ++ t)) <;> cases noStart pat a t <;>
        cases isSubList pat t <;> rfl

/-- Skip a final chunk that is free of the pattern's first character. -/
theorem replW_all_head (h : Char) (p rep a : List Char)
    (ha : a.all (fun c => c != h) = true) :
    pyReplaceW (h :: p) rep a = a := by
  have := replW_skip_head h p rep a [] ha
  simpa [replW_nil] using this

theorem NAME_cons : ("__NAME__").data = '_' :: ("_NAME__").data := rfl

theorem SEM_cons : ("__SEM__").data = '_' :: ("_SEM__").data := rfl

theorem DAYS_cons : ("__DAYS_HTML__").data = '_' :: ("_DAYS_HTML__").data := rfl

theorem noUnd_tpl0 : tpl0.data.all (fun c => c != '_') = true := by decide

theorem noUnd_tpl1 : tpl1.data.all (fun c => c != '_') = true := by decide

set_option maxRecDepth 8000 in
theorem noUnd_tpl2 : tpl2.data.all (fun c => c != '_') = true := by decide

theorem noUnd_tpl3 : tpl3.data.all (fun c => c != '_') = true := by decide

theorem noUnd_tpl4 : tpl4.data.all (fun c => c != '_') = true := by decide

set_option maxRecDepth 4000 in
theorem noUnd_tpl5 : tpl5.data.all (fun c => c != '_') = true := by decide

theorem len8_tpl2 : 8 ≤ tpl2.data.length := by
  have h : (tpl2.data.take 8).length = 8 := by decide
  rw [List.length_take] at h
  omega

theorem len8_tpl4 : 8 ≤ tpl4.data.length := by
  have h : (tpl4.data.take 8).length = 8 := by decide
  rw [List.length_take] at h
  omega

theorem len13_tpl5 : 13 ≤ tpl5.data.length := by
  have h : (tpl5.data.take 13).length = 13 := by decide
  rw [List.length_take] at h
  omega

theorem nsNAME_SEM_tpl2 :
    noStart (("__NAME__").data) (("__SEM__").data) tpl2.data = true := by decide

theorem nsNAME_SEM_tpl4 :
    noStart (("__NAME__").data) (("__SEM__").data) tpl4.data = true := by decide

theorem nsNAME_DAYS_tpl5 :
    noStart (("__NAME__").data) (("__DAYS_HTML__").data) tpl5.data = true := by decide

theorem nsSEM_DAYS_tpl5 :
    noStart (("__SEM__").data) (("__DAYS_HTML__").data) tpl5.data = true := by decide

/-- The template's shape: its six literal pieces with the five
substitution slots (name, semester, name, semester, day content). -/
def chunks (a b c e f : List Char) : List Char :=
  tpl0.data ++ (a ++ (tpl1.data ++ (b ++ (tpl2.data ++ (c ++
    (tpl3.data ++ (e ++ (tpl4.data ++ (f ++ tpl5.data)))))))))

theorem template_chunks :
    template.data =
      chunks (("__NAME__").data) (("__SEM__").data) (("__NAME__").data)
        (("__SEM__").data) (("__DAYS_HTML__").data) := by
  simp [template, chunks, String.data_append, List.append_assoc]

/-- First substitution pass: both `__NAME__` tokens are replaced (by an
arbitrary, unscanned value), everything else is untouched. -/
theorem pass1 (rep : List Char) :
    pyReplaceW (("__NAME__").data) rep template.data =
      chunks rep (("__SEM__").data) rep (("__SEM__").data)
        (("__DAYS_HTML__").data) := by
  rw [template_chunks]
  unfold chunks
  rw [NAME_cons]
  rw [replW_skip_head _ _ _ _ _ noUnd_tpl0]
  rw [replW_match]
  rw [replW_skip_head _ _ _ _ _ noUnd_tpl1]
  rw [replW_skip_part _ _ _ _ _ (by simpa using len8_tpl2) (by simpa using nsNAME_SEM_tpl2)]
  rw [replW_skip_head _ _ _ _ _ noUnd_tpl2]
  rw [replW_match]
  rw [replW_skip_head _ _ _ _ _ noUnd_tpl3]
  rw [replW_skip_part _ _ _ _ _ (by simpa using len8_tpl4) (by simpa using nsNAME_SEM_tpl4)]
  rw [replW_skip_head _ _ _ _ _ noUnd_tpl4]
  rw [replW_skip_noStart _ _ _ _ (by simpa using nsNAME_DAYS_tpl5)]
  rw [replW_all_head _ _ _ _ noUnd_tpl5]

/-- Second pass for an underscore-free substituted name: both `__SEM__`
tokens are replaced, the inserted name is scanned but untouched. -/
theorem pass2_general (n rep : List Char) (hn : n.all (fun c => c != '_') = true) :
    pyReplaceW (("__SEM__").data) rep
      (chunks n (("__SEM__").data) n (("__SEM__").data) (("__DAYS_HTML__").data)) =
      chunks n rep n rep (("__DAYS_HTML__").data) := by
  unfold chunks
  rw [SEM_cons]
  rw [replW_skip_head _ _ _ _ _ noUnd_tpl0]
  rw [replW_skip_head _ _ _ _ _ hn]
  rw [replW_skip_head _ _ _ _ _ noUnd_tpl1]
  rw [replW_match]
  rw [replW_skip_head _ _ _ _ _ noUnd_tpl2]
  rw [replW_skip_head _ _ _ _ _ hn]
  rw [replW_skip_head _ _ _ _ _ noUnd_tpl3]
  rw [replW_match]
  rw [replW_skip_head _ _ _ _ _ noUnd_tpl4]
  rw [replW_skip_noStart _ _ _ _ (by simpa using nsSEM_DAYS_tpl5)]
  rw [replW_all_head _ _ _ _ noUnd_tpl5]

/-- Second pass when the substituted name is itself the literal token
`__SEM__`: all four occurrences — the two template tokens and the two
copies of the name — are replaced. -/
theorem pass2_collide (rep : List Char) :
    pyReplaceW (("__SEM__").data) rep
      (chunks (("__SEM__").data) (("__SEM__").data) (("__SEM__").data)
        (("__SEM__").data) (("__DAYS_HTML__").data)) =
      chunks rep rep rep rep (("__DAYS_HTML__").data) := by
  unfold chunks
  rw [SEM_cons]
  rw [replW_skip_head _ _ _ _ _ noUnd_tpl0]
  rw [replW_match]
  rw [replW_skip_head _ _ _ _ _ noUnd_tpl1]
  rw [replW_match]
  rw [replW_skip_head _ _ _ _ _ noUnd_tpl2]
  rw [replW_match]
  rw [replW_skip_head _ _ _ _ _ noUnd_tpl3]
  rw [replW_match]
  rw [replW_skip_head _ _ _ _ _ noUnd_tpl4]
  rw [replW_skip_noStart _ _ _ _ (by simpa using nsSEM_DAYS_tpl5)]
  rw [replW_all_head _ _ _ _ noUnd_tpl5]

/-- Third pass: the `__DAYS_HTML__` token is replaced by the rendered day
sections; earlier substituted values (underscore-free) are untouched. -/
theorem pass3 (A B C E d : List Char)
    (hA : A.all (fun c => c != '_') = true) (hB : B.all (fun c => c != '_') = true)
    (hC : C.all (fun c => c != '_') = true) (hE : E.all (fun c => c != '_') = true) :
    pyReplaceW (("__DAYS_HTML__").data) d
      (chunks A B C E (("__DAYS_HTML__").data)) = chunks A B C E d := by
  unfold chunks
  rw [DAYS_cons]
  rw [replW_skip_head _ _ _ _ _ noUnd_tpl0]
  rw [replW_skip_head _ _ _ _ _ hA]
  rw [replW_skip_head _ _ _ _ _ noUnd_tpl1]
  rw [replW_skip_head _ _ _ _ _ hB]
  rw [replW_skip_head _ _ _ _ _ noUnd_tpl2]
  rw [replW_skip_head _ _ _ _ _ hC]
  rw [replW_skip_head _ _ _ _ _ noUnd_tpl3]
  rw [replW_skip_head _ _ _ _ _ hE]
  rw [replW_skip_head _ _ _ _ _ noUnd_tpl4]
  rw [replW_match]
  rw [replW_all_head _ _ _ _ noUnd_tpl5]

theorem data_mk (l : List Char) : (String.mk l).data = l := rfl

/-- The three template substitutions of `generate_html`, for an
underscore-free escaped name, semester and day content. -/
theorem subst_chain (n s d : String)
    (hn : n.data.all (fun c => c != '_') = true)
    (hs : s.data.all (fun c => c != '_') = true) :
    pyReplaceS (pyReplaceS (pyReplaceS template ("__NAME__") n) ("__SEM__") s)
        ("__DAYS_HTML__") d = String.mk (chunks n.data s.data n.data s.data d.data) := by
  have h1 : pyReplaceS template ("__NAME__") n =
      String.mk (chunks n.data (("__SEM__").data) n.data (("__SEM__").data)
        (("__DAYS_HTML__").data)) := by
    show String.mk (pyReplace (("__NAME__").data) n.data template.data) = _
    rw [pyReplace_eq_W _ _ _ (by decide), pass1 n.data]
  have h2 : pyReplaceS (pyReplaceS template ("__NAME__") n) ("__SEM__") s =
      String.mk (chunks n.data s.data n.data s.data (("__DAYS_HTML__").data)) := by
    rw [h1]
    show String.mk (pyReplace (("__SEM__").data) s.data (String.mk _).data) = _
    rw [data_mk, pyReplace_eq_W _ _ _ (by decide), pass2_general n.data s.data hn]
  rw [h2]
  show String.mk (pyReplace (("__DAYS_HTML__").data) d.data (String.mk _).data) = _
  rw [data_mk, pyReplace_eq_W _ _ _ (by decide),
    pass3 n.data s.data n.data s.data d.data hn hs hn hs]

/-- The three template substitutions when the escaped name is the literal
token `__SEM__`: the second pass rewrites the substituted name too. -/
theorem subst_chain_collide (s d : String)
    (hs : s.data.all (fun c => c != '_') = true) :
    pyReplaceS (pyReplaceS (pyReplaceS template ("__NAME__") ("__SEM__"))
        ("__SEM__") s) ("__DAYS_HTML__") d =
      String.mk (chunks s.data s.data s.data s.data d.data) := by
  have h1 : pyReplaceS template ("__NAME__") ("__SEM__") =
      String.mk (chunks (("__SEM__").data) (("__SEM__").data) (("__SEM__").data)
        (("__SEM__").data) (("__DAYS_HTML__").data)) := by
    show String.mk (pyReplace (("__NAME__").data) (("__SEM__").data) template.data) = _
    rw [pyReplace_eq_W _ _ _ (by decide), pass1 (("__SEM__").data)]
  have h2 : pyReplaceS (pyReplaceS template ("__NAME__") ("__SEM__")) ("__SEM__") s =
      String.mk (chunks s.data s.data s.data s.data (("__DAYS_HTML__").data)) := by
    rw [h1]
    show String.mk (pyReplace (("__SEM__").data) s.data (String.mk _).data) = _
    rw [data_mk, pyReplace_eq_W _ _ _ (by decide), pass2_collide s.data]
  rw [h2]
  show String.mk (pyReplace (("__DAYS_HTML__").data) d.data (String.mk _).data) = _
  rw [data_mk, pyReplace_eq_W _ _ _ (by decide),
    pass3 s.data s.data s.data s.data d.data hs hs hs hs]

theorem generate_c1doc :
    generate_html (Value.dict [(("name"), Value.str ("__SEM__")),
        (("semester"), Value.str ("X"))]) =
      some (pyReplaceS (pyReplaceS (pyReplaceS template ("__NAME__") ("__SEM__"))
        ("__SEM__") ("X")) ("__DAYS_HTML__") ("")) := by
  rfl

set_option maxRecDepth 9000 in
theorem c1scan_sem :
    isSubList (("__SEM__").data)
      (chunks (("X").data) (("X").data) (("X").data) (("X").data) (("").data)) = false := by
  decide

set_option maxRecDepth 9000 in
theorem c1scan_h1 :
    isSubList (("<h1>X</h1>").data)
      (chunks (("X").data) (("X").data) (("X").data) (("X").data) (("").data)) = true := by
  decide

set_option maxRecDepth 9000 in
theorem c1scan_meta :
    isSubList (("Semester: X").data)
      (chunks (("X").data) (("X").data) (("X").data) (("X").data) (("").data)) = true := by
  decide

/-- Claim C1 (counterexample): for the document with name `"__SEM__"` and
semester `"X"`, the assembled page does not contain the name text
`__SEM__` anywhere — the heading holds the semester value `X` instead —
so the substitution does collide with user content. -/
theorem c1_counterexample :
    ((generate_html (Value.dict [(("name"), Value.str ("__SEM__")),
        (("semester"), Value.str ("X"))])).map
      fun p => (containsSub p ("__SEM__"), containsSub p ("<h1>X</h1>"))) =
      some (false, true) := by
  rw [generate_c1doc, subst_chain_collide ("X") ("") (by decide)]
  simp only [Option.map_some', containsSub, data_mk]
  rw [c1scan_sem, c1scan_h1]

/-- Claim C1 (amended): escaping preserves the placeholder tokens
(escaped user content can contain them), and since page assembly replaces
`__NAME__`, then `__SEM__`, then `__DAYS_HTML__` by successive one-shot
replaces, a document whose `name` is the literal string `"__SEM__"` has
that text substituted by the semester value: with semester `"X"` the
heading and the semester line both show `X`. -/
theorem c1_collision :
    _escape (Value.str ("__SEM__")) = "__SEM__" ∧
    ((generate_html (Value.dict [(("name"), Value.str ("__SEM__")),
        (("semester"), Value.str ("X"))])).map
      fun p => (containsSub p ("<h1>X</h1>"), containsSub p ("Semester: X"))) =
      some (true, true) := by
  refine ⟨by decide, ?_⟩
  rw [generate_c1doc, subst_chain_collide ("X") ("") (by decide)]
  simp only [Option.map_some', containsSub, data_mk]
  rw [c1scan_h1, c1scan_meta]

theorem generate_emptyname :
    generate_html (Value.dict [(("name"), Value.str (""))]) =
      some (pyReplaceS (pyReplaceS (pyReplaceS template ("__NAME__") (""))
        ("__SEM__") ("")) ("__DAYS_HTML__") ("")) := by
  rfl

theorem generate_emptydoc :
    generate_html (Value.dict []) =
      some (pyReplaceS (pyReplaceS (pyReplaceS template ("__NAME__") ("Schedule"))
        ("__SEM__") ("")) ("__DAYS_HTML__") ("")) := by
  rfl

set_option maxRecDepth 9000 in
theorem c5scan_schedule :
    isSubList (("Schedule").data)
      (chunks (("").data) (("").data) (("").data) (("").data) (("").data)) = false := by
  decide

set_option maxRecDepth 9000 in
theorem c5scan_h1empty :
    isSubList (("<h1></h1>").data)
      (chunks (("").data) (("").data) (("").data) (("").data) (("").data)) = true := by
  decide

set_option maxRecDepth 9000 in
theorem c5scan_h1schedule :
    isSubList (("<h1>Schedule</h1>").data)
      (chunks (("Schedule").data) (("").data) (("Schedule").data) (("").data)
        (("").data)) = true := by
  decide

/-- Claim C5 (counterexample): a document whose `name` is present but the
empty string renders an empty heading, and the default `"Schedule"`
appears nowhere in the page — the default is not applied to an empty
name. -/
theorem c5_counterexample :
    ((generate_html (Value.dict [(("name"), Value.str (""))])).map
      fun p => (containsSub p ("Schedule"), containsSub p ("<h1></h1>"))) =
      some (false, true) := by
  rw [generate_emptyname, subst_chain ("") ("") ("") (by decide) (by decide)]
  simp only [Option.map_some', containsSub, data_mk]
  rw [c5scan_schedule, c5scan_h1empty]

/-- Claim C5 (amended): the page heading is the escaped `name`, with the
default `"Schedule"` used only when the `name` key is absent (a present
but empty or null `name` renders as the empty string); the subtitle is
the escaped `semester`, empty when absent.  For the empty document the
heading is `Schedule`. -/
theorem c5_title_subtitle :
    (∀ ps : List (String × Value), lookupV ps ("name") = none →
      _escape (dictGetD ps ("name") (Value.str ("Schedule"))) = "Schedule") ∧
    (∀ ps v, lookupV ps ("name") = some v →
      _escape (dictGetD ps ("name") (Value.str ("Schedule"))) = _escape v) ∧
    (∀ ps : List (String × Value), lookupV ps ("semester") = none →
      _escape (dictGetD ps ("semester") (Value.str (""))) = "") ∧
    (∀ ps v, lookupV ps ("semester") = some v →
      _escape (dictGetD ps ("semester") (Value.str (""))) = _escape v) ∧
    ((generate_html (Value.dict [])).map
      fun p => containsSub p ("<h1>Schedule</h1>")) = some true := by
  refine ⟨?_, ?_, ?_, ?_, ?_⟩
  · intro ps h
    rw [dictGetD, h]
    decide
  · intro ps v h
    rw [dictGetD, h]
  · intro ps h
    rw [dictGetD, h]
    decide
  · intro ps v h
    rw [dictGetD, h]
  · rw [generate_emptydoc, subst_chain ("Schedule") ("") ("") (by decide) (by decide)]
    simp only [Option.map_some', containsSub, data_mk]
    rw [c5scan_h1schedule]

/-- Claim C5 (witness): the amended rules applied at concrete documents —
an absent name defaults to `Schedule`, a present name is escaped as
given. -/
theorem c5_witness :
    _escape (dictGetD [] ("name") (Value.str ("Schedule"))) = "Schedule" ∧
    _escape (dictGetD [(("name"), Value.str ("x&y"))] ("name")
      (Value.str ("Schedule"))) = _escape (Value.str ("x&y")) ∧
    _escape (dictGetD [] ("semester") (Value.str (""))) = "" ∧
    _escape (dictGetD [(("semester"), Value.str ("Fall"))] ("semester")
      (Value.str (""))) = _escape (Value.str ("Fall")) := by
  refine ⟨c5_title_subtitle.1 [] rfl, ?_, c5_title_subtitle.2.2.1 [] rfl, ?_⟩
  · exact c5_title_subtitle.2.1 [(("name"), Value.str ("x&y"))] (Value.str ("x&y")) rfl
  · exact c5_title_subtitle.2.2.2.1 [(("semester"), Value.str ("Fall"))]
      (Value.str ("Fall")) rfl

/-! ### The escaper -/

/-- The HTML-significant characters handled by `_escape`. -/
def specialChars : List Char := ['&', '<', '>', '"', Char.ofNat 39]

/-- Does the text contain an HTML-significant character? -/
def hasSpecial (s : String) : Bool := s.data.any fun c => specialChars.contains c

/-- What one character becomes under `html.escape`. -/
def escChar (c : Char) : List Char :=
  if c = '&' then ("&amp;").data
  else if c = '<' then ("&lt;").data
  else if c = '>' then ("&gt;").data
  else if c = '"' then ("&quot;").data
  else if c = Char.ofNat 39 then ("&#x27;").data
  else [c]

theorem replW_single (a : Char) (rep : List Char) :
    ∀ l : List Char, pyReplaceW [a] rep l =
      l.flatMap fun c => if c = a then rep else [c] := by
  intro l
  induction l with
  | nil => rw [replW_nil]; rfl
  | cons c cs ih =>
      rw [pyReplaceW, List.flatMap_cons]
      by_cases h : c = a
      · subst h
        rw [if_pos (by simp [List.isPrefixOf]), if_pos rfl]
        simp only [List.length_cons, List.length_nil]
        rw [Nat.zero_add, Nat.sub_self, List.drop_zero, ih]
      · rw [if_neg (by simp [List.isPrefixOf]; intro hc; exact absurd hc.symm h),
          if_neg h, ih]
        rfl

theorem pyReplace_single (a : Char) (rep l : List Char) :
    pyReplace [a] rep l = l.flatMap fun c => if c = a then rep else [c] := by
  rw [pyReplace_eq_W _ _ _ (by simp), replW_single]

theorem escChar_step (c : Char) :
    ((if c = '&' then ("&amp;").data else [c]).flatMap fun x =>
      (if x = '<' then ("&lt;").data else [x]).flatMap fun x =>
        (if x = '>' then ("&gt;").data else [x]).flatMap fun x =>
          (if x = '"' then ("&quot;").data else [x]).flatMap fun x =>
            if x = Char.ofNat 39 then ("&#x27;").data else [x]) = escChar c := by
  by_cases h1 : c = '&'
  · subst h1; decide
  by_cases h2 : c = '<'
  · subst h2; rw [if_neg h1]; decide
  by_cases h3 : c = '>'
  · subst h3; rw [if_neg h1]; decide
  by_cases h4 : c = '"'
  · subst h4; rw [if_neg h1]; decide
  by_cases h5 : c = Char.ofNat 39
  · subst h5; rw [if_neg h1]; decide
  · rw [if_neg h1]
    simp only [List.flatMap_cons, List.flatMap_nil, List.append_nil,
      if_neg h2, if_neg h3, if_neg h4, if_neg h5]
    rw [escChar, if_neg h1, if_neg h2, if_neg h3, if_neg h4, if_neg h5]

theorem html_escape_flatMap (l : List Char) : html_escape l = l.flatMap escChar := by
  show pyReplace [Char.ofNat 39] (("&#x27;").data)
      (pyReplace ['"'] (("&quot;").data)
        (pyReplace ['>'] (("&gt;").data)
          (pyReplace ['<'] (("&lt;").data)
            (pyReplace ['&'] (("&amp;").data) l)))) = _
  rw [pyReplace_single, pyReplace_single, pyReplace_single, pyReplace_single,
    pyReplace_single, List.flatMap_assoc, List.flatMap_assoc, List.flatMap_assoc,
    List.flatMap_assoc]
  refine congrArg (List.flatMap l) (funext fun c => ?_)
  exact escChar_step c

theorem escape_str (s : String) :
    _escape (Value.str s) = String.mk (s.data.flatMap escChar) := by
  show html_escapeS s = _
  rw [html_escapeS, html_escape_flatMap]

/-- The entity bodies that may legitimately follow a `&` in escaped
output. -/
def entityTails : List (List Char) :=
  [("amp;").data, ("lt;").data, ("gt;").data, ("quot;").data, ("#x27;").data]

/-- Every `&` in the text begins one of the five escape entities. -/
def ampOk : List Char → Bool
  | [] => true
  | c :: rest =>
      ((c != '&') || entityTails.any fun e => e.isPrefixOf rest) && ampOk rest

/-- No raw `<`, `>`, `"`, `'` at all, and every `&` starts an entity. -/
def rawFree (l : List Char) : Bool :=
  (l.all fun c => !(['<', '>', '"', Char.ofNat 39].contains c)) && ampOk l

theorem rawFree_block (c : Char) (r : List Char) (hr : rawFree r = true) :
    rawFree (escChar c ++ r) = true := by
  rw [rawFree, Bool.and_eq_true] at hr
  by_cases h1 : c = '&'
  · subst h1
    simp only [escChar, if_pos rfl]
    rw [rawFree, Bool.and_eq_true]
    refine ⟨?_, ?_⟩
    · simp only [List.all_append]
      rw [hr.1]
      decide
    · show ampOk ('&' :: 'a' :: 'm' :: 'p' :: ';' :: r) = true
      simp only [ampOk, entityTails, List.any_cons, List.any_nil,
        List.isPrefixOf, Bool.and_eq_true]
      simp [hr.2]
  by_cases h2 : c = '<'
  · subst h2
    simp only [escChar, if_neg h1, if_pos rfl]
    rw [rawFree, Bool.and_eq_true]
    refine ⟨?_, ?_⟩
    · simp only [List.all_append]
      rw [hr.1]
      decide
    · show ampOk ('&' :: 'l' :: 't' :: ';' :: r) = true
      simp only [ampOk, entityTails, List.any_cons, List.any_nil,
        List.isPrefixOf, Bool.and_eq_true]
      simp [hr.2]
  by_cases h3 : c = '>'
  · subst h3
    simp only [escChar, if_neg h1, if_neg h2, if_pos rfl]
    rw [rawFree, Bool.and_eq_true]
    refine ⟨?_, ?_⟩
    · simp only [List.all_append]
      rw [hr.1]
      decide
    · show ampOk ('&' :: 'g' :: 't' :: ';' :: r) = true
      simp only [ampOk, entityTails, List.any_cons, List.any_nil,
        List.isPrefixOf, Bool.and_eq_true]
      simp [hr.2]
  by_cases h4 : c = '"'
  · subst h4
    simp only [escChar, if_neg h1, if_neg h2, if_neg h3, if_pos rfl]
    rw [rawFree, Bool.and_eq_true]
    refine ⟨?_, ?_⟩
    · simp only [List.all_append]
      rw [hr.1]
      decide
    · show ampOk ('&' :: 'q' :: 'u' :: 'o' :: 't' :: ';' :: r) = true
      simp only [ampOk, entityTails, List.any_cons, List.any_nil,
        List.isPrefixOf, Bool.and_eq_true]
      simp [hr.2]
  by_cases h5 : c = Char.ofNat 39
  · subst h5
    simp only [escChar, if_neg h1, if_neg h2, if_neg h3, if_neg h4, if_pos rfl]
    rw [rawFree, Bool.and_eq_true]
    refine ⟨?_, ?_⟩
    · simp only [List.all_append]
      rw [hr.1]
      decide
    · show ampOk ('&' :: '#' :: 'x' :: '2' :: '7' :: ';' :: r) = true
      simp only [ampOk, entityTails, List.any_cons, List.any_nil,
        List.isPrefixOf, Bool.and_eq_true]
      simp [hr.2]
  · simp only [escChar, if_neg h1, if_neg h2, if_neg h3, if_neg h4, if_neg h5,
      List.cons_append, List.nil_append]
    rw [rawFree, Bool.and_eq_true]
    refine ⟨?_, ?_⟩
    · simp only [List.all_cons, Bool.and_eq_true]
      refine ⟨?_, hr.1⟩
      simp only [List.contains_cons, List.contains_nil, Bool.not_eq_true',
        Bool.or_eq_false_iff, beq_eq_false_iff_ne, ne_eq]
      exact ⟨fun h => h2 h, fun h => h3 h, fun h => h4 h, fun h => h5 h, trivial⟩
    · simp only [ampOk, Bool.and_eq_true]
      refine ⟨?_, hr.2⟩
      simp only [Bool.or_eq_true, bne_iff_ne, ne_eq]
      exact Or.inl h1
theorem rawFree_flatMap : ∀ l : List Char, rawFree (l.flatMap escChar) = true := by
  intro l
  induction l with
  | nil => decide
  | cons c cs ih => exact List.flatMap_cons c cs escChar ▸ rawFree_block c _ ih

theorem escChar_id (c : Char) (h : specialChars.contains c = false) :
    escChar c = [c] := by
  simp only [specialChars, List.contains_cons, List.contains_nil,
    Bool.or_eq_false_iff, beq_eq_false_iff_ne, ne_eq] at h
  rw [escChar, if_neg h.1, if_neg h.2.1, if_neg h.2.2.1, if_neg h.2.2.2.1,
    if_neg h.2.2.2.2.1]

theorem flatMap_escChar_id :
    ∀ l : List Char, (l.all fun c => !(specialChars.contains c)) = true →
      l.flatMap escChar = l := by
  intro l
  induction l with
  | nil => intro _; rfl
  | cons c cs ih =>
      intro h
      rw [List.all_cons, Bool.and_eq_true] at h
      rw [List.flatMap_cons, escChar_id c (by simpa using h.1), ih h.2]
      rfl

/-- Claim C7: `_escape` maps `None` to the empty string (and is a total
function over the value model by construction); for text containing
HTML-significant characters the escaped output has no raw occurrence of
them (no `<`, `>`, `"`, `'` at all, and every `&` begins an escape
entity); text without special characters is returned unchanged. -/
theorem c7_escape :
    _escape Value.null = "" ∧
    (∀ s : String, hasSpecial s = true →
      rawFree ((_escape (Value.str s)).data) = true) ∧
    (∀ s : String, hasSpecial s = false → _escape (Value.str s) = s) := by
  refine ⟨by decide, ?_, ?_⟩
  · intro s _h
    rw [escape_str, data_mk]
    exact rawFree_flatMap s.data
  · intro s h
    have hall : (s.data.all fun c => !(specialChars.contains c)) = true := by
      simp only [hasSpecial] at h
      rw [List.any_eq_false] at h
      rw [List.all_eq_true]
      intro x hx
      simpa using h x hx
    rw [escape_str, flatMap_escChar_id s.data hall]

/-- Claim C7 (witness): the escape rules at concrete inputs: `"a<b"`
contains a special character and escapes raw-free; `"abc"` has none and
is returned unchanged. -/
theorem c7_witness :
    (hasSpecial ("a<b") = true ∧ rawFree ((_escape (Value.str ("a<b"))).data) = true) ∧
    (hasSpecial ("abc") = false ∧ _escape (Value.str ("abc")) = "abc") :=
  ⟨⟨by decide, c7_escape.2.1 ("a<b") (by decide)⟩,
   ⟨by decide, c7_escape.2.2 ("abc") (by decide)⟩⟩

/-- Claim C9: `render_slot` is not total over scalar `time` values — a
truthy, non-subscriptable scalar such as the integer `930` raises
(modelled as `none`) instead of falling back to empty start/end. -/
theorem c9_time_scalar_raises :
    render_slot (Value.dict [(("time"), Value.int 930)]) = none := by
  rfl

/-- Claim C2: for a slot whose `time` is a sequence of text values (or
missing), the displayed start is the first element if present else empty
and the end is the second element if present else empty; the time column
is the em-dash placeholder iff both are empty, and otherwise the literal
`"{start} — {end}"` (space, em-dash U+2014, space); a missing `time` key
falls back to the em-dash; `time: ["09:00"]` displays `09:00 —`. -/
theorem c2_time_fallback :
    (∀ ts : List String,
      time_str (Value.list (ts.map Value.str)) =
        some (if ts.headD "" = "" ∧ (ts.drop 1).headD "" = "" then "—"
          else _escape (Value.str (ts.headD "")) ++ " — " ++
            _escape (Value.str ((ts.drop 1).headD "")))) ∧
    (∀ ps : List (String × Value), lookupV ps ("time") = none →
      time_str (dictGetD ps ("time") (Value.list [])) = some ("—")) ∧
    ((render_slot (Value.dict [(("time"), Value.list [Value.str ("09:00")])])).map
      fun h => containsSub h ("09:00 —")) = some true := by
  refine ⟨?_, ?_, by decide⟩
  · intro ts
    match ts with
    | [] => rfl
    | [a] =>
        simp only [List.map_cons, List.map_nil]
        rw [time_str, show timeStartEnd (Value.list [Value.str a]) =
            some (Value.str a, Value.str "") from rfl, Option.map_some']
        by_cases ha : a = "" <;> simp [truthy, ha]
    | a :: b :: rest =>
        simp only [List.map_cons]
        rw [time_str, show timeStartEnd (Value.list (Value.str a :: Value.str b ::
            rest.map Value.str)) = some (Value.str a, Value.str b) from rfl,
          Option.map_some']
        by_cases ha : a = "" <;> by_cases hb : b = "" <;> simp [truthy, ha, hb]
  · intro ps h
    rw [dictGetD, h]
    rfl

/-- Claim C2 (witness): the missing-`time` rule applied to a slot mapping
with no `time` key. -/
theorem c2_witness :
    lookupV [] ("time") = none ∧
    time_str (dictGetD [] ("time") (Value.list [])) = some ("—") :=
  ⟨rfl, c2_time_fallback.2.1 [] rfl⟩

/-- Claim C10: a slot whose `time` is a non-empty string displays only
the first character of that string as the start with an empty end;
`time: "09:00"` renders start `0`, not `09:00`. -/
theorem c10_string_time_first_char :
    (∀ (ps : List (String × Value)) (c : Char) (cs : List Char),
      lookupV ps ("time") = some (Value.str (String.mk (c :: cs))) →
      time_str (dictGetD ps ("time") (Value.list [])) =
        some (_escape (Value.str (String.mk [c])) ++ " — " ++
          _escape (Value.str ""))) ∧
    ((render_slot (Value.dict [(("time"), Value.str ("09:00"))])).map
      fun h => containsSub h ("<div class=\"time\">0 — </div>")) = some true := by
  refine ⟨?_, by decide⟩
  intro ps c cs h
  rw [dictGetD, h]
  have hts : timeStartEnd (Value.str (String.mk (c :: cs))) =
      some (Value.str (String.mk [c]), Value.str "") := by
    show (if truthy (Value.str (String.mk (c :: cs))) then
        (subscript0 (Value.str (String.mk (c :: cs)))).map fun v => (v, Value.str "")
      else some (Value.str "", Value.str "")) = _
    rw [if_pos (by simp [truthy, String.ext_iff])]
    rfl
  rw [time_str, hts, Option.map_some',
    if_pos (by simp [truthy, String.ext_iff])]

/-- Claim C10 (witness): the first-character rule applied at the concrete
slot `time: "09:00"`. -/
theorem c10_witness :
    lookupV [(("time"), Value.str ("09:00"))] ("time") =
      some (Value.str (String.mk ('0' :: ("9:00").data))) ∧
    time_str (dictGetD [(("time"), Value.str ("09:00"))] ("time") (Value.list [])) =
      some (_escape (Value.str (String.mk ['0'])) ++ " — " ++ _escape (Value.str "")) :=
  ⟨rfl, c10_string_time_first_char.1 [(("time"), Value.str ("09:00"))] '0'
    (("9:00").data) rfl⟩

set_option maxRecDepth 4000 in
/-- Claim C4 (counterexample): the day key `"tueSDAY"` renders with the
header text `Tuesday` — the remainder of the key is lowercased — not
`TueSDAY` as the claim predicts. -/
theorem c4_counterexample :
    (daysHtmlParts [(("tueSDAY"), Value.list [Value.dict []])]).map
      (fun l => l.map fun s => (containsSub s ("Tuesday"), containsSub s ("TueSDAY"))) =
      some [(true, false)] := by
  decide

/-- Claim C4 (amended): a rendered day section shows the day name with
its first character uppercased and all remaining characters lowercased
(Python `str.capitalize`). -/
theorem c4_capitalize :
    ∀ (c : Char) (cs : List Char),
      emitDay [((String.mk (c :: cs)), Value.list [Value.dict []])]
          (String.mk (c :: cs)) =
        some (some ("<section class=\"day-section\">" ++
          "  <header class=\"day-header\"><div class=\"day-name\">" ++
          _escape (Value.str (String.mk (c.toUpper :: cs.map Char.toLower))) ++
          "</div></header>" ++
          "  <div class=\"day-row\">" ++
          ("<div class=\"slot\">" ++ "  <div class=\"time\">" ++ "—" ++ "</div>" ++
            "  <div class=\"lectures\">" ++ "" ++ "</div>" ++ "</div>") ++
          "</div>" ++ "</section>")) := by
  intro c cs
  have hk : dictGetD [((String.mk (c :: cs)), Value.list [Value.dict []])]
      (String.mk (c :: cs)) (Value.list []) = Value.list [Value.dict []] := by
    rw [dictGetD, show lookupV [((String.mk (c :: cs)), Value.list [Value.dict []])]
      (String.mk (c :: cs)) = some (Value.list [Value.dict []]) by simp [lookupV]]
  rw [emitDay, hk]
  rw [if_neg (by simp [pyOr, truthy])]
  show some (some (daySectionHtml (String.mk (c :: cs))
    ("<div class=\"slot\">" ++ "  <div class=\"time\">" ++ "—" ++ "</div>" ++
     "  <div class=\"lectures\">" ++ "" ++ "</div>" ++ "</div>"))) = _
  rw [daySectionHtml, show pyCapitalize (String.mk (c :: cs)) =
    String.mk (c.toUpper :: cs.map Char.toLower) from rfl]

/-! ### Day ordering -/

theorem memB_iff (x : String) : ∀ l : List String, memB x l = true ↔ x ∈ l := by
  intro l
  induction l with
  | nil => simp [memB]
  | cons y ys ih => simp [memB, ih, beq_iff_eq]

/-- With distinct keys, the second ordering loop is a filter on the
initially seen set: the accumulation never matters. -/
theorem appendUnseen_eq :
    ∀ (ks seen : List String), ks.Nodup →
      appendUnseen ks seen = ks.filter fun k => !(memB k seen) := by
  intro ks
  induction ks with
  | nil => intro seen _; rfl
  | cons k ks ih =>
      intro seen hnd
      rw [List.nodup_cons] at hnd
      rw [appendUnseen]
      by_cases hm : memB k seen = true
      · rw [if_pos hm, ih seen hnd.2, List.filter_cons]
        simp [hm]
      · rw [if_neg hm, ih (k :: seen) hnd.2, List.filter_cons]
        simp only [Bool.not_eq_true] at hm
        simp only [hm, Bool.not_false, if_pos]
        congr 1
        refine List.filter_congr fun x hx => ?_
        have hxk : x ≠ k := fun h => hnd.1 (h ▸ hx)
        simp [memB, beq_iff_eq, hxk]

theorem orderDays_eq (week : List (String × Value))
    (hnd : (week.map Prod.fst).Nodup) :
    orderDays week =
      dayOrder.filter (fun d => memB d (week.map Prod.fst)) ++
        (week.map Prod.fst).filter fun k => !(memB k dayOrder) := by
  rw [orderDays, appendUnseen_eq _ _ hnd]
  congr 1
  refine List.filter_congr fun x hx => ?_
  have : memB x (dayOrder.filter fun d => memB d (week.map Prod.fst)) =
      memB x dayOrder := by
    by_cases hd : memB x dayOrder = true
    · rw [hd]
      rw [memB_iff]
      rw [List.mem_filter]
      refine ⟨(memB_iff x dayOrder).mp hd, ?_⟩
      rw [memB_iff]
      exact hx
    · simp only [Bool.not_eq_true] at hd
      rw [hd]
      rw [← Bool.not_eq_true, memB_iff, List.mem_filter]
      intro hcon
      rw [← memB_iff x dayOrder] at hcon
      exact absurd hcon.1 (by simp [hd])
  rw [this]

/-- Claim C3: the day order is the canonical weekday order restricted to
the keys present, followed by the remaining keys in original insertion
order; the empty mapping yields the empty sequence. -/
theorem c3_day_order :
    orderDays [] = [] ∧
    (∀ week : List (String × Value), (week.map Prod.fst).Nodup →
      orderDays week =
        dayOrder.filter (fun d => decide (d ∈ week.map Prod.fst)) ++
          (week.map Prod.fst).filter fun k => !(decide (k ∈ dayOrder))) := by
  refine ⟨rfl, fun week hnd => ?_⟩
  rw [orderDays_eq week hnd]
  congr 1
  · refine List.filter_congr fun x _ => ?_
    by_cases h : x ∈ week.map Prod.fst
    · simp [h, (memB_iff x _).mpr h]
    · simp only [h, decide_False]
      rw [← Bool.not_eq_true, memB_iff]
      exact h
  · refine List.filter_congr fun x _ => ?_
    by_cases h : x ∈ dayOrder
    · simp [h, (memB_iff x _).mpr h]
    · simp only [h, decide_False, Bool.not_false]
      rw [show memB x dayOrder = false from by
        rw [← Bool.not_eq_true, memB_iff]; exact h]
      rfl

/-- Claim C3 (witness): the ordering applied to a concrete mapping with a
non-canonical key listed first. -/
theorem c3_witness :
    ([(("zzz"), Value.list []), (("monday"), Value.list [])].map
        (Prod.fst (β := Value))).Nodup ∧
    orderDays [(("zzz"), Value.list []), (("monday"), Value.list [])] =
      dayOrder.filter (fun d => decide (d ∈
          [(("zzz"), Value.list []), (("monday"), Value.list [])].map Prod.fst)) ++
        ([(("zzz"), Value.list []), (("monday"), Value.list [])].map Prod.fst).filter
          fun k => !(decide (k ∈ dayOrder)) :=
  ⟨by decide, c3_day_order.2 [(("zzz"), Value.list []), (("monday"), Value.list [])]
    (by decide)⟩

/-! ### Empty days contribute nothing -/

theorem map_fst_filter_ne (week : List (String × Value)) (d : String) :
    (week.filter fun p => p.1 != d).map Prod.fst =
      (week.map Prod.fst).filter fun k => k != d := by
  induction week with
  | nil => rfl
  | cons p ps ih =>
      rw [List.map_cons, List.filter_cons, List.filter_cons]
      by_cases h : (p.1 != d) = true
      · rw [if_pos h, if_pos h, List.map_cons, ih]
      · rw [if_neg h, if_neg h, ih]

theorem lookupV_filter_ne (week : List (String × Value)) (d x : String)
    (hx : x ≠ d) :
    lookupV (week.filter fun p => p.1 != d) x = lookupV week x := by
  induction week with
  | nil => rfl
  | cons p ps ih =>
      rw [List.filter_cons]
      by_cases h : (p.1 != d) = true
      · rw [if_pos h, lookupV, lookupV, ih]
      · have hpd : p.1 = d := by simpa using h
        rw [if_neg h, lookupV, if_neg (by simp [hpd]; exact fun hc => hx hc.symm), ih]

theorem emitDay_filter_ne (week : List (String × Value)) (d x : String)
    (hx : x ≠ d) :
    emitDay (week.filter fun p => p.1 != d) x = emitDay week x := by
  rw [emitDay, emitDay, dictGetD, dictGetD, lookupV_filter_ne week d x hx]

theorem mapO_congr (f g : α → Option β) :
    ∀ l : List α, (∀ x ∈ l, f x = g x) → mapO f l = mapO g l := by
  intro l
  induction l with
  | nil => intro _; rfl
  | cons x xs ih =>
      intro h
      rw [mapO, mapO, h x (List.mem_cons_self x xs), ih fun y hy => h y (List.mem_cons_of_mem x hy)]

theorem mapO_skip_filter [BEq α] [LawfulBEq α] (f : α → Option (Option β)) (d : α)
    (hd : f d = some none) :
    ∀ l : List α,
      (mapO f (l.filter fun x => x != d)).map (List.filterMap id) =
        (mapO f l).map (List.filterMap id) := by
  intro l
  induction l with
  | nil => rfl
  | cons x xs ih =>
      rw [List.filter_cons]
      by_cases h : x = d
      · subst h
        rw [if_neg (by simp), mapO, hd]
        rw [ih]
        cases hm : mapO f xs with
        | none => rfl
        | some ys => simp [List.filterMap_cons]
      · rw [if_pos (by simp [h]), mapO, mapO]
        cases hm : f x with
        | none => rfl
        | some y =>
            cases hm2 : mapO f (xs.filter fun z => z != d) with
            | none =>
                have := ih
                rw [hm2] at this
                cases hm3 : mapO f xs with
                | none => rfl
                | some zs => rw [hm3] at this; simp at this
            | some ys =>
                have := ih
                rw [hm2] at this
                cases hm3 : mapO f xs with
                | none => rw [hm3] at this; simp at this
                | some zs =>
                    rw [hm3] at this
                    simp only [Option.map_some', Option.some.injEq] at this
                    simp [List.filterMap_cons, this]

theorem memB_filter (x : String) (l : List String) (q : String → Bool) :
    memB x (l.filter q) = (memB x l && q x) := by
  induction l with
  | nil => rfl
  | cons y ys ih =>
      rw [List.filter_cons]
      by_cases hq : q y = true
      · rw [if_pos hq, memB, memB, ih]
        by_cases hxy : x = y
        · subst hxy
          simp [hq]
        · have hb : (x == y) = false := by simpa using hxy
          simp [hb]
      · rw [if_neg hq, memB, ih]
        by_cases hxy : x = y
        · subst hxy
          simp only [Bool.not_eq_true] at hq
          simp [hq]
        · have hb : (x == y) = false := by simpa using hxy
          simp [hb]

theorem orderDays_filter_ne (week : List (String × Value)) (d : String)
    (hnd : (week.map Prod.fst).Nodup) :
    orderDays (week.filter fun p => p.1 != d) =
      (orderDays week).filter fun k => k != d := by
  have hnd' : ((week.filter fun p => p.1 != d).map Prod.fst).Nodup := by
    rw [map_fst_filter_ne]
    exact hnd.filter _
  rw [orderDays_eq _ hnd', orderDays_eq week hnd, map_fst_filter_ne,
    List.filter_append]
  congr 1
  · rw [List.filter_filter]
    refine List.filter_congr fun x _ => ?_
    rw [memB_filter, Bool.and_comm]
  · rw [List.filter_filter, List.filter_filter]
    refine List.filter_congr fun x _ => ?_
    rw [Bool.and_comm]

theorem filter_ne_of_lookup_none (week : List (String × Value)) (d : String)
    (h : lookupV week d = none) :
    week.filter (fun p => p.1 != d) = week := by
  induction week with
  | nil => rfl
  | cons p ps ih =>
      rw [lookupV] at h
      by_cases hb : (p.1 == d) = true
      · rw [if_pos hb] at h
        exact absurd h (by simp)
      · rw [if_neg hb] at h
        rw [List.filter_cons, if_pos (by simpa using hb), ih h]

theorem emitDay_falsy (week : List (String × Value)) (d : String)
    (h : lookupV week d = some Value.null ∨ lookupV week d = some (Value.list [])) :
    emitDay week d = some none := by
  rw [emitDay, dictGetD]
  rcases h with h | h <;> rw [h] <;> rfl

/-- Claim C6: a day absent from `week` or mapped to a null/empty slot
list contributes nothing to the output (removing it leaves the rendered
day parts unchanged, with no empty section shell); a missing or falsy
`week` is the empty mapping, which yields zero day sections. -/
theorem c6_empty_days_omitted :
    (∀ ps : List (String × Value), lookupV ps ("week") = none → weekOf ps = some []) ∧
    daysHtmlParts [] = some [] ∧
    (∀ (week : List (String × Value)) (d : String), (week.map Prod.fst).Nodup →
      (lookupV week d = none ∨ lookupV week d = some Value.null ∨
        lookupV week d = some (Value.list [])) →
      daysHtmlParts week = daysHtmlParts (week.filter fun p => p.1 != d)) := by
  refine ⟨?_, rfl, ?_⟩
  · intro ps h
    rw [weekOf, dictGetD, h]
    rfl
  · intro week d hnd hv
    rcases hv with hv | hv
    · rw [filter_ne_of_lookup_none week d hv]
    · have hemit : emitDay week d = some none := emitDay_falsy week d hv
      rw [daysHtmlParts, daysHtmlParts, orderDays_filter_ne week d hnd]
      rw [mapO_congr (emitDay (week.filter fun p => p.1 != d)) (emitDay week) _
        fun x hx => emitDay_filter_ne week d x (by
          rcases List.mem_filter.mp hx with ⟨_, hxd⟩
          simpa using hxd)]
      rw [mapO_skip_filter (emitDay week) d hemit (orderDays week)]

/-- Claim C6 (witness): removing a day with an empty slot list from a
concrete week leaves the rendered day parts unchanged, and a document
without a `week` key iterates the empty mapping. -/
theorem c6_witness :
    weekOf [] = some [] ∧
    daysHtmlParts [(("monday"), Value.list []), (("holiday"), Value.null),
        (("tuesday"), Value.list [Value.dict []])] =
      daysHtmlParts ([(("monday"), Value.list []), (("holiday"), Value.null),
        (("tuesday"), Value.list [Value.dict []])].filter fun p => p.1 != "monday") :=
  ⟨c6_empty_days_omitted.1 [] rfl,
   c6_empty_days_omitted.2.2 [(("monday"), Value.list []), (("holiday"), Value.null),
      (("tuesday"), Value.list [Value.dict []])] ("monday") (by decide)
      (Or.inr (Or.inr rfl))⟩

/-- Claim C8: when the input path does not exist the run terminates with
exit status 1 and a message naming the path, before any parse attempt
(the result does not depend on the parser) and with the file system
unchanged; when the path exists and parsing and rendering succeed, the
run exits 0 having written the page to the output file. -/
theorem c8_entry_point :
    ∀ (parse parse2 : String → Except String Value)
      (fs fs2 : List (String × String)) (content : String) (v : Value),
      (fsLookup fs IN_FILE = none →
        (main' parse fs).1 = 1 ∧
        (main' parse fs).2.1 = ["Input file not found: " ++ IN_FILE] ∧
        (main' parse fs).2.2 = fs ∧
        main' parse fs = main' parse2 fs) ∧
      (fsLookup fs2 IN_FILE = some content → parse content = Except.ok v →
        (generate_html (pyOr v (Value.dict []))).isSome = true →
        main' parse fs2 = (0, ["Wrote " ++ OUT_FILE],
          fsWrite fs2 OUT_FILE ((generate_html (pyOr v (Value.dict []))).getD ""))) := by
  intro parse parse2 fs fs2 content v
  constructor
  · intro h
    simp [main', h]
  · intro h1 h2 h3
    obtain ⟨page, hp⟩ := Option.isSome_iff_exists.mp h3
    simp only [main', h1, h2, hp, Option.getD_some]

/-- Claim C8 (witness): the missing-input behaviour on an empty file
system (for two different parsers) and the success behaviour on a file
system holding an empty input file. -/
theorem c8_witness :
    ((main' (fun _ => Except.ok Value.null) []).1 = 1 ∧
     (main' (fun _ => Except.ok Value.null) []).2.1 =
        ["Input file not found: " ++ IN_FILE] ∧
     (main' (fun _ => Except.ok Value.null) []).2.2 = [] ∧
     main' (fun _ => Except.ok Value.null) [] =
        main' (fun _ => Except.error "boom") []) ∧
    main' (fun _ => Except.ok Value.null) [(("terrible.yaml"), "")] =
      (0, ["Wrote " ++ OUT_FILE], fsWrite [(("terrible.yaml"), "")] OUT_FILE
        ((generate_html (pyOr Value.null (Value.dict []))).getD "")) :=
  ⟨(c8_entry_point (fun _ => Except.ok Value.null) (fun _ => Except.error "boom")
      [] [] "" Value.null).1 rfl,
   (c8_entry_point (fun _ => Except.ok Value.null) (fun _ => Except.ok Value.null)
      [] [(("terrible.yaml"), "")] "" Value.null).2 rfl rfl
      (by rw [show pyOr Value.null (Value.dict []) = Value.dict [] from rfl,
            generate_emptydoc]; rfl)⟩
